import Mathlib

/-!
Verification of the address parsing and matching core of the NZ Property
Valuator repository (addressMatcher.js).  The JavaScript source is shallowly
embedded: strings are Lean `String` / `List Char`, the null-or-string fields
are `Option String`, and every regular expression of the source is translated
into an executable deterministic function that mirrors the regex engine
semantics (leftmost match, greedy quantifiers with backtracking where the
character classes overlap).
-/

namespace AddressMatcher

/-! ### Character classes used by the JavaScript regexes -/

/-- JavaScript whitespace class `\s` (ASCII part; the source strings are ASCII). -/
def isWS (c : Char) : Bool :=
  c = ' ' || c = '\t' || c = '\n' || c = '\r' || c = '\x0b' || c = '\x0c'

/-- Regex `\d`. -/
def isDigitC (c : Char) : Bool := c.isDigit

/-- Regex `[a-z]` under the `/i` flag. -/
def isLetterC (c : Char) : Bool := c.isAlpha

/-- Regex word character `\w` (for the `\b` boundary). -/
def isWordC (c : Char) : Bool := c.isAlpha || c.isDigit || c = '_'

/-- JavaScript line terminators, which `.` does not match. -/
def isLineTerm (c : Char) : Bool :=
  c = '\n' || c = '\r' || c = '\u2028' || c = '\u2029'

/-- The class `[,;]`. -/
def isCSChar (c : Char) : Bool := c = ',' || c = ';'

/-- The class `[,\s]` of Pattern B. -/
def isCommaWS (c : Char) : Bool := c = ',' || isWS c

/-! ### List-of-characters primitives -/

/-- `String.prototype.trim`. -/
def trimL (l : List Char) : List Char :=
  ((l.dropWhile isWS).reverse.dropWhile isWS).reverse

/-- `String.prototype.toLowerCase` (ASCII). -/
def lowerL (l : List Char) : List Char := l.map Char.toLower

/-- `needle` occurs at the head of `hay`. -/
def leadsWith : List Char → List Char → Bool
  | _, [] => true
  | [], _ :: _ => false
  | a :: as, b :: bs => a = b && leadsWith as bs

/-- `hay.includes(needle)`: `needle` occurs contiguously in `hay`. -/
def subOcc (hay needle : List Char) : Bool :=
  leadsWith hay needle ||
    match hay with
    | [] => false
    | _ :: t => subOcc t needle

/-- `hay.replace(needle, "")` for a literal string `needle`: remove the first
occurrence. -/
def replaceFirstSub (hay needle : List Char) : List Char :=
  match hay with
  | [] => []
  | c :: t => if leadsWith (c :: t) needle then (c :: t).drop needle.length
              else c :: replaceFirstSub t needle

/-- Join word lists with a single space (`Array.prototype.join(" ")`). -/
def joinSpace (ws : List (List Char)) : List Char := List.intercalate [' '] ws

/-- Does `\b\d{4}\b` match at the head of the list, given the previous
character (`none` at string start)? -/
def pcAt (prev : Option Char) (l : List Char) : Bool :=
  match l with
  | a :: b :: c :: d :: rest =>
    isDigitC a && isDigitC b && isDigitC c && isDigitC d &&
    (match prev with | none => true | some p => !isWordC p) &&
    (match rest with | [] => true | e :: _ => !isWordC e)
  | _ => false

/-- First match of `/\b(\d{4})\b/`: the captured four digits. -/
def findPC : Option Char → List Char → Option (List Char)
  | _, [] => none
  | prev, c :: t => if pcAt prev (c :: t) then some ((c :: t).take 4)
                    else findPC (some c) t

/-- `s.replace(/\d{5,}\s*$/, "")`: strip a trailing run of five or more digits
(followed only by whitespace) from the end. -/
def stripTrailID (l : List Char) : List Char :=
  let r := l.reverse
  let r1 := r.dropWhile isWS
  let ds := r1.takeWhile isDigitC
  if 5 ≤ ds.length then (r1.drop ds.length).reverse else l

/-- `s.replace(/\b\d{4}\b/, "")`: remove the first word-bounded 4-digit token. -/
def replacePC : Option Char → List Char → List Char
  | _, [] => []
  | prev, c :: t => if pcAt prev (c :: t) then (c :: t).drop 4
                    else c :: replacePC (some c) t

/-- `s.split(/[,;]/)` keeping empty segments. -/
def splitCS : List Char → List (List Char)
  | [] => [[]]
  | c :: t =>
    if isCSChar c then [] :: splitCS t
    else match splitCS t with
         | s :: ss => (c :: s) :: ss
         | [] => [[c]]

mutual

/-- `s.split(/\s+/)`: segment accumulation state. -/
def wsSeg (acc : List Char) : List Char → List (List Char)
  | [] => [acc.reverse]
  | c :: t => if isWS c then acc.reverse :: wsSkip t else wsSeg (c :: acc) t

/-- `s.split(/\s+/)`: inside a whitespace run. -/
def wsSkip : List Char → List (List Char)
  | [] => [[]]
  | c :: t => if isWS c then wsSkip t else wsSeg [c] t

end

/-- `s.split(/\s+/)`. -/
def splitWS (l : List Char) : List (List Char) := wsSeg [] l

/-! ### Lexicon (street type abbreviation map, canonical set, suburb prefixes) -/

/-- `STREET_TYPE_MAP`: abbreviation to canonical full word. -/
def STREET_TYPE_MAP : List (List Char × List Char) :=
  [("st".toList, "street".toList), ("rd".toList, "road".toList),
   ("ave".toList, "avenue".toList), ("av".toList, "avenue".toList),
   ("dr".toList, "drive".toList), ("cres".toList, "crescent".toList),
   ("cr".toList, "crescent".toList), ("pl".toList, "place".toList),
   ("tce".toList, "terrace".toList), ("tc".toList, "terrace".toList),
   ("hwy".toList, "highway".toList), ("ln".toList, "lane".toList),
   ("ct".toList, "court".toList), ("pde".toList, "parade".toList),
   ("esp".toList, "esplanade".toList), ("blvd".toList, "boulevard".toList),
   ("bvd".toList, "boulevard".toList), ("gr".toList, "grove".toList),
   ("gv".toList, "grove".toList), ("rs".toList, "rise".toList),
   ("wy".toList, "way".toList), ("cl".toList, "close".toList),
   ("clo".toList, "close".toList), ("sq".toList, "square".toList),
   ("pk".toList, "park".toList), ("gdn".toList, "garden".toList),
   ("gdns".toList, "gardens".toList), ("bch".toList, "beach".toList),
   ("bdwy".toList, "broadway".toList), ("fwy".toList, "freeway".toList)]

/-- `STREET_TYPE_MAP[w]` (truthy lookup). -/
def stLookup (w : List Char) : Option (List Char) := List.lookup w STREET_TYPE_MAP

/-- `CANONICAL_STREET_TYPES`. -/
def CANONICAL_STREET_TYPES : List (List Char) :=
  ["street".toList, "road".toList, "avenue".toList, "drive".toList,
   "crescent".toList, "place".toList, "terrace".toList, "highway".toList,
   "lane".toList, "court".toList, "parade".toList, "esplanade".toList,
   "boulevard".toList, "grove".toList, "rise".toList, "way".toList,
   "close".toList, "square".toList, "park".toList, "garden".toList,
   "gardens".toList, "beach".toList, "broadway".toList, "freeway".toList,
   "mews".toList, "quay".toList, "track".toList, "walk".toList,
   "loop".toList, "access".toList, "view".toList, "heights".toList]

/-- `CANONICAL_STREET_TYPES.has(w) || STREET_TYPE_MAP[w]`. -/
def isStreetTypeWord (w : List Char) : Bool :=
  CANONICAL_STREET_TYPES.contains w || (stLookup w).isSome

/-- `expandSuburbAbbrev`: expand a leading "st " / "mt " / "pt " abbreviation
(first match wins, case-insensitive test, remainder keeps original case). -/
def expandSuburbAbbrev (s : String) : String :=
  if s = "" then s
  else if leadsWith (lowerL s.toList) "st ".toList then
    ("saint ".toList ++ s.toList.drop 3).asString
  else if leadsWith (lowerL s.toList) "mt ".toList then
    ("mount ".toList ++ s.toList.drop 3).asString
  else if leadsWith (lowerL s.toList) "pt ".toList then
    ("point ".toList ++ s.toList.drop 3).asString
  else s

/-! ### The unit/house number patterns A, B, C

Each is the exact translation of the anchored regex from the source, with the
backtracking of `[a-z]?` against the following required token, and of `\s+`
against the final `(.+)`, made explicit. -/

/-- The tail `(.+)` after `\s+` consumed `k` characters of `l`: succeeds when a
non-line-terminator character follows, capturing greedily. -/
def bodyAt (l : List Char) (k : Nat) : Option (List Char) :=
  match l.drop k with
  | [] => none
  | c :: t => if isLineTerm c then none
              else some ((c :: t).takeWhile (fun x => !isLineTerm x))

/-- Backtracking loop of `\s+(.+)`: try `\s+` consuming `k, k-1, ..., 1`. -/
def tryBody (l : List Char) : Nat → Option (List Char)
  | 0 => none
  | Nat.succ k => match bodyAt l (k + 1) with
                  | some b => some b
                  | none => tryBody l k

/-- `\s+(.+)` matched against the whole of `l`. -/
def wsThenBody (l : List Char) : Option (List Char) :=
  let n := (l.takeWhile isWS).length
  if n = 0 then none else tryBody l n

/-- `(\d+[a-z]?)\s+(.+)` matched against the whole of `l`: returns the number
(with optional letter) and the street body. -/
def numThenBody (l : List Char) : Option (List Char × List Char) :=
  let d := l.takeWhile isDigitC
  if d.isEmpty then none
  else
    match l.drop d.length with
    | [] => none
    | c :: rest =>
      if isLetterC c then
        match wsThenBody rest with
        | some b => some (d ++ [c], b)
        | none => none
      else
        match wsThenBody (c :: rest) with
        | some b => some (d, b)
        | none => none

/-- Pattern A: `/^(\d+[a-z]?)\/(\d+[a-z]?)\s+(.+)/i`. -/
def patA (l : List Char) : Option (List Char × List Char × List Char) :=
  let d := l.takeWhile isDigitC
  if d.isEmpty then none
  else
    match l.drop d.length with
    | '/' :: r2 =>
      match numThenBody r2 with
      | some (h, b) => some (d, h, b)
      | none => none
    | c :: '/' :: r2 =>
      if isLetterC c then
        match numThenBody r2 with
        | some (h, b) => some (d ++ [c], h, b)
        | none => none
      else none
    | _ => none

/-- The keyword alternation `(?:unit|flat|apt|apartment|lot)`, in source order. -/
def unitKeywords : List (List Char) :=
  ["unit".toList, "flat".toList, "apt".toList, "apartment".toList, "lot".toList]

/-- Rest of Pattern B after the keyword:
`\s+(\d+[a-z]?)[,\s]+(\d+[a-z]?)\s+(.+)`. -/
def patBAfterKw (r : List Char) : Option (List Char × List Char × List Char) :=
  let ws := r.takeWhile isWS
  if ws.isEmpty then none
  else
    let r1 := r.drop ws.length
    let d := r1.takeWhile isDigitC
    if d.isEmpty then none
    else
      match r1.drop d.length with
      | [] => none
      | c :: rest =>
        if isLetterC c then
          match rest with
          | c2 :: _ =>
            if isCommaWS c2 then
              let cs := rest.takeWhile isCommaWS
              match numThenBody (rest.drop cs.length) with
              | some (h, b) => some (d ++ [c], h, b)
              | none => none
            else none
          | [] => none
        else if isCommaWS c then
          let cs := (c :: rest).takeWhile isCommaWS
          match numThenBody ((c :: rest).drop cs.length) with
          | some (h, b) => some (d, h, b)
          | none => none
        else none

/-- Keyword alternation with backtracking into later alternatives. -/
def tryKw : List (List Char) → List Char → Option (List Char × List Char × List Char)
  | [], _ => none
  | k :: ks, l =>
    match (if leadsWith (lowerL l) k then patBAfterKw (l.drop k.length) else none) with
    | some r => some r
    | none => tryKw ks l

/-- Pattern B:
`/^(?:unit|flat|apt|apartment|lot)\s+(\d+[a-z]?)[,\s]+(\d+[a-z]?)\s+(.+)/i`. -/
def patB (l : List Char) : Option (List Char × List Char × List Char) :=
  tryKw unitKeywords l

/-- Pattern C: `/^(\d+[a-z]?)\s+(.+)/i`. -/
def patC (l : List Char) : Option (List Char × List Char) := numThenBody l

/-- The bare unit test `/^(?:unit|flat|apt|apartment|lot)\s+\d+[a-z]?$/i`. -/
def unitPrefixTest (l : List Char) : Bool :=
  unitKeywords.any fun k =>
    leadsWith (lowerL l) k &&
      (let r := l.drop k.length
       let ws := r.takeWhile isWS
       !ws.isEmpty &&
         (let r1 := r.drop ws.length
          let d := r1.takeWhile isDigitC
          !d.isEmpty &&
            (match r1.drop d.length with
             | [] => true
             | [c] => isLetterC c
             | _ => false)))

/-! ### parseAddress, staged exactly as the source -/

/-- `ParsedAddress`: the record returned by `parseAddress`.  A JavaScript
string-or-null field is an `Option String`. -/
structure ParsedAddress where
  unitNum : Option String
  houseNum : Option String
  streetName : Option String
  streetType : Option String
  suburb : Option String
  city : Option String
  postcode : Option String
  valid : Bool
deriving DecidableEq, Repr

/-- `_invalid()`: the canonical invalid record. -/
def invalidRec : ParsedAddress :=
  { unitNum := none, houseNum := none, streetName := none, streetType := none,
    suburb := none, city := none, postcode := none, valid := false }

/-- Scan `words` from the end (excluding index 0) for the first recognized
street type word, lowercased: the loop
`for (i = words.length - 1; i >= 1; i--)`. -/
def scanST (ws : List (List Char)) : Option Nat :=
  (List.range ws.length).reverse.find? fun i =>
    decide (1 ≤ i) && isStreetTypeWord (lowerL (ws.getD i []))

/-- Run-on PropertyValue slug detection: on success, the street portion, the
locality portion (joined and trimmed) and the postcode. -/
def runOnStage (input : List Char) : Option (List Char × List Char × List Char) :=
  if input.any isCSChar then none
  else
    match findPC none input with
    | none => none
    | some pc =>
      let cleaned := trimL (replaceFirstSub (stripTrailID input) pc)
      let words := splitWS cleaned
      match scanST words with
      | none => none
      | some i =>
        some (joinSpace (words.take (i + 1)),
              trimL (joinSpace (words.drop (i + 1))), pc)

/-- Street/locality split plus the unit-prefix rejoin repair: from the trimmed
input, the street portion, the locality parts, and the run-on postcode. -/
def splitStage (raw : String) : List Char × List (List Char) × Option (List Char) :=
  let input := trimL raw.toList
  let step1 : List Char × List (List Char) × Option (List Char) :=
    match runOnStage input with
    | some (sp, lp, pc) => (sp, if lp.isEmpty then [] else [lp], some pc)
    | none =>
      match input.findIdx? isCSChar with
      | none => (input, [], none)
      | some i =>
        (trimL (input.take i),
         ((splitCS (input.drop (i + 1))).map trimL).filter (fun l => !l.isEmpty),
         none)
  match step1 with
  | (sp, [], pc) => (sp, [], pc)
  | (sp, p :: ps, pc) =>
    if unitPrefixTest sp then (sp ++ (',' :: ' ' :: p), ps, pc)
    else (sp, p :: ps, pc)

/-- The pattern cascade A, then B, then C, first success wins: the optional
unit number, the house number and the street body. -/
def cascade (sp : List Char) : Option (Option (List Char) × List Char × List Char) :=
  match patA sp with
  | some (u, h, b) => some (some u, h, b)
  | none =>
    match patB sp with
    | some (u, h, b) => some (some u, h, b)
    | none =>
      match patC sp with
      | some (h, b) => some (none, h, b)
      | none => none

/-- Street name and type extraction from the street body: the street type (if
the last word is recognized) and the name words. -/
def streetStage (body : List Char) : Option (List Char) × List (List Char) :=
  let words := splitWS (trimL body)
  let lastWord := lowerL (words.getLastD [])
  match stLookup lastWord with
  | some full => (some full, words.dropLast)
  | none =>
    if CANONICAL_STREET_TYPES.contains lastWord then (some lastWord, words.dropLast)
    else (none, words)

/-- Locality resolution when a suburb or city hint is given: hints are used
directly (lowercased and trimmed); the locality parts are still scanned for a
4-digit postcode if none was captured. -/
def localityHint (sh ch : Option String) (parts : List (List Char))
    (pc0 : Option (List Char)) : Option String × Option String × Option String :=
  let sub : Option String :=
    match sh with
    | some s => if s = "" then none else some (trimL (lowerL s.toList)).asString
    | none => none
  let cty : Option String :=
    match ch with
    | some s => if s = "" then none else some (trimL (lowerL s.toList)).asString
    | none => none
  let pc := parts.foldl
    (fun acc part => if acc.isSome then acc else findPC none part) pc0
  (sub, cty, pc.map List.asString)

/-- Strip a trailing `" - <word>"` qualifier: `p.replace(/\s*-\s*\w+$/, "")`. -/
def dashSuffixAt (r : List Char) : Bool :=
  let w1 := r.takeWhile isWS
  match r.drop w1.length with
  | '-' :: r2 =>
    let w2 := r2.takeWhile isWS
    let r3 := r2.drop w2.length
    let wd := r3.takeWhile isWordC
    !wd.isEmpty && (r3.drop wd.length).isEmpty
  | _ => false

/-- Index of the leftmost match of `/\s*-\s*\w+$/`. -/
def findDashIdx : List Char → Nat → Option Nat
  | [], _ => none
  | c :: t, i => if dashSuffixAt (c :: t) then some i else findDashIdx t (i + 1)

/-- `p.replace(/\s*-\s*\w+$/, "")`. -/
def stripDashSuffix (l : List Char) : List Char :=
  match findDashIdx l 0 with
  | some i => l.take i
  | none => l

/-- The cleaned locality parts: dash-qualifier suffix stripped, trimmed. -/
def cleanPartsOf (parts : List (List Char)) : List (List Char) :=
  parts.map fun p => trimL (stripDashSuffix p)

/-- The non-empty locality parts after removing the postcode token. -/
def localWordsOf (parts : List (List Char)) : List (List Char) :=
  ((cleanPartsOf parts).map fun p => trimL (replacePC none p)).filter
    fun l => !l.isEmpty

/-- First non-empty cleaned part becomes suburb, second becomes city, both
lowercased and suburb-prefix-expanded. -/
def pickSuburbCity (localWords : List (List Char)) : Option String × Option String :=
  match localWords with
  | [] => (none, none)
  | [w] => (some (expandSuburbAbbrev (lowerL w).asString), none)
  | w :: w2 :: _ => (some (expandSuburbAbbrev (lowerL w).asString),
                     some (expandSuburbAbbrev (lowerL w2).asString))

/-- Locality resolution without hints: clean the parts, take the first
postcode found, and let the first and second non-empty remaining parts become
suburb and city (suburb-prefix-expanded, lowercased). -/
def localityNoHint (parts : List (List Char))
    (pc0 : Option (List Char)) : Option String × Option String × Option String :=
  let pc := (cleanPartsOf parts).foldl
    (fun acc part => if acc.isSome then acc else findPC none part) pc0
  let sc := pickSuburbCity (localWordsOf parts)
  (sc.1, sc.2, pc.map List.asString)

/-- The final `suburb || null` style normalization: an empty string becomes
the null sentinel. -/
def orNullStr : Option String → Option String
  | none => none
  | some s => if s = "" then none else some s

/-- Assemble the valid record from the cascade output and the locality data. -/
def buildRecord (u : Option (List Char)) (hn body : List Char)
    (parts : List (List Char)) (pc0 : Option (List Char))
    (sh ch : Option String) : ParsedAddress :=
  let st := streetStage body
  let loc := if sh.isSome || ch.isSome then localityHint sh ch parts pc0
             else localityNoHint parts pc0
  { unitNum := u.map fun l => (lowerL l).asString
    houseNum := some (lowerL hn).asString
    streetName := some (expandSuburbAbbrev (lowerL (joinSpace st.2)).asString)
    streetType := st.1.map List.asString
    suburb := orNullStr loc.1
    city := orNullStr loc.2.1
    postcode := orNullStr loc.2.2
    valid := true }

/-- `parseAddress(raw, suburbHint, cityHint)`. -/
def parseAddress (raw : String) (sh ch : Option String) : ParsedAddress :=
  if raw = "" then invalidRec
  else
    let st := splitStage raw
    match cascade st.1 with
    | none => invalidRec
    | some (u, h, body) => buildRecord u h body st.2.1 st.2.2 sh ch

/-! ### matchAddress -/

/-- The verdict `{ match, confidence, unitFallback }`.  The failure object of
the source carries no `unitFallback` key, hence the `Option Bool`. -/
structure MatchVerdict where
  matched : Bool
  confidence : Option String
  unitFallback : Option Bool
deriving DecidableEq, Repr

/-- The `NO` verdict `{ match: false, confidence: null }`. -/
def NO : MatchVerdict := { matched := false, confidence := none, unitFallback := none }

/-- JavaScript truthiness of a string-or-null field: not null and not empty. -/
def truthyS : Option String → Bool
  | none => false
  | some s => decide (s ≠ "")

/-- `a.includes(b)`. -/
def jsIncludes (a b : String) : Bool := subOcc a.toList b.toList

/-- Rule 2: the unit gate fails. -/
def unitGateFails (q c : ParsedAddress) : Bool :=
  match q.unitNum, c.unitNum with
  | some u, some v => decide (u ≠ v)
  | some _, none => true
  | none, some _ => true
  | none, none => false

/-- Rule 4: both street types present and different. -/
def typeGateFails (q c : ParsedAddress) : Bool :=
  match q.streetType, c.streetType with
  | some a, some b => decide (a ≠ b)
  | _, _ => false

/-- Rule 5 compatibility: equal after suburb expansion, or one a substring of
the other. -/
def suburbCompatB (a b : String) : Bool :=
  let qs := expandSuburbAbbrev a
  let cs := expandSuburbAbbrev b
  decide (qs = cs) || jsIncludes qs cs || jsIncludes cs qs

/-- Rule 5: both suburbs truthy and incompatible. -/
def suburbGateFails (q : ParsedAddress) (c : ParsedAddress) : Bool :=
  truthyS q.suburb && truthyS c.suburb &&
    !suburbCompatB (q.suburb.getD "") (c.suburb.getD "")

/-- City compatibility for scoring: equal or one a substring of the other. -/
def cityCompatB (a b : String) : Bool :=
  decide (a = b) || jsIncludes a b || jsIncludes b a

/-- The locality quality score: +2 suburb, +1 city, +2 postcode. -/
def localityScore (q c : ParsedAddress) : Nat :=
  (if truthyS q.suburb && truthyS c.suburb &&
      suburbCompatB (q.suburb.getD "") (c.suburb.getD "") then 2 else 0) +
  (if truthyS q.city && truthyS c.city &&
      cityCompatB (q.city.getD "") (c.city.getD "") then 1 else 0) +
  (if truthyS q.postcode && truthyS c.postcode &&
      decide (q.postcode.getD "" = c.postcode.getD "") then 2 else 0)

/-- `score >= 3 ? "high" : score >= 1 ? "medium" : "low"`. -/
def confOf (s : Nat) : String :=
  if 3 ≤ s then "high" else if 1 ≤ s then "medium" else "low"

/-- The success verdict once every hard gate has passed. -/
def matchYes (q c : ParsedAddress) : MatchVerdict :=
  { matched := true
    confidence := some (confOf (localityScore q c))
    unitFallback := some (decide (q.unitNum = none) && decide (c.unitNum ≠ none)) }

/-- `matchAddress(q, c)`; a `none` argument is the null/undefined input of the
source guard `!q || !q.valid || !c || !c.valid`. -/
def matchAddress (qo co : Option ParsedAddress) : MatchVerdict :=
  match qo, co with
  | some q, some c =>
    if !q.valid || !c.valid then NO
    else if q.houseNum ≠ c.houseNum then NO
    else if unitGateFails q c then NO
    else if q.streetName ≠ c.streetName then NO
    else if typeGateFails q c then NO
    else if suburbGateFails q c then NO
    else matchYes q c
  | _, _ => NO

/-! ### Matcher lemmas -/

/-- Unfolding equation of `matchAddress` on two present records. -/
lemma matchAddress_some (q c : ParsedAddress) :
    matchAddress (some q) (some c) =
      (if !q.valid || !c.valid then NO
       else if q.houseNum ≠ c.houseNum then NO
       else if unitGateFails q c then NO
       else if q.streetName ≠ c.streetName then NO
       else if typeGateFails q c then NO
       else if suburbGateFails q c then NO
       else matchYes q c) := rfl

/-- When every hard gate passes, the result is the success verdict. -/
lemma matchAddress_of_pass (q c : ParsedAddress) (h1 : q.valid = true)
    (h2 : c.valid = true) (h3 : q.houseNum = c.houseNum)
    (h4 : unitGateFails q c = false) (h5 : q.streetName = c.streetName)
    (h6 : typeGateFails q c = false) (h7 : suburbGateFails q c = false) :
    matchAddress (some q) (some c) = matchYes q c := by
  rw [matchAddress_some]
  simp [h1, h2, h3, h4, h5, h6, h7]

/-- A match is established exactly when both records are valid and the five
hard gates pass. -/
lemma matchAddress_matched_iff (q c : ParsedAddress) :
    (matchAddress (some q) (some c)).matched = true ↔
      (q.valid = true ∧ c.valid = true ∧ q.houseNum = c.houseNum ∧
       unitGateFails q c = false ∧ q.streetName = c.streetName ∧
       typeGateFails q c = false ∧ suburbGateFails q c = false) := by
  constructor
  · intro h
    rw [matchAddress_some] at h
    split_ifs at h with h1 h2 h3 h4 h5 h6
    · simp [NO] at h
    · simp [NO] at h
    · simp [NO] at h
    · simp [NO] at h
    · simp [NO] at h
    · simp [NO] at h
    · simp only [Bool.or_eq_true, Bool.not_eq_true', not_or, not_not,
                 Bool.not_eq_false] at h1 h2 h3 h4 h5 h6
      exact ⟨h1.1, h1.2, h2, Bool.not_eq_true _ ▸ h3, h4, Bool.not_eq_true _ ▸ h5,
             Bool.not_eq_true _ ▸ h6⟩
  · intro ⟨h1, h2, h3, h4, h5, h6, h7⟩
    rw [matchAddress_of_pass q c h1 h2 h3 h4 h5 h6 h7]
    rfl

/-! ### Suburb expansion lemmas -/

lemma toList_asString (l : List Char) : (List.asString l).toList = l := rfl

lemma lowerL_append (a b : List Char) : lowerL (a ++ b) = lowerL a ++ lowerL b :=
  List.map_append _ _ _

lemma asString_ne_empty {l : List Char} (h : l ≠ []) : l.asString ≠ "" := by
  cases l with
  | nil => exact absurd rfl h
  | cons c t =>
    intro hh
    have h2 : (List.asString (c :: t)).data = ("" : String).data := by rw [hh]
    simp [List.asString] at h2

lemma ne_true_of_false {b : Bool} (h : b = false) : ¬(b = true) := by
  rw [h]
  exact Bool.false_ne_true

lemma expand_of_st (s : String) (h0 : s ≠ "")
    (h1 : leadsWith (lowerL s.toList) "st ".toList = true) :
    expandSuburbAbbrev s = ("saint ".toList ++ s.toList.drop 3).asString := by
  unfold expandSuburbAbbrev
  rw [if_neg h0, if_pos h1]

lemma expand_of_mt (s : String) (h0 : s ≠ "")
    (h1 : leadsWith (lowerL s.toList) "st ".toList = false)
    (h2 : leadsWith (lowerL s.toList) "mt ".toList = true) :
    expandSuburbAbbrev s = ("mount ".toList ++ s.toList.drop 3).asString := by
  unfold expandSuburbAbbrev
  rw [if_neg h0, if_neg (ne_true_of_false h1), if_pos h2]

lemma expand_of_pt (s : String) (h0 : s ≠ "")
    (h1 : leadsWith (lowerL s.toList) "st ".toList = false)
    (h2 : leadsWith (lowerL s.toList) "mt ".toList = false)
    (h3 : leadsWith (lowerL s.toList) "pt ".toList = true) :
    expandSuburbAbbrev s = ("point ".toList ++ s.toList.drop 3).asString := by
  unfold expandSuburbAbbrev
  rw [if_neg h0, if_neg (ne_true_of_false h1), if_neg (ne_true_of_false h2), if_pos h3]

lemma expand_no_match (s : String)
    (h1 : leadsWith (lowerL s.toList) "st ".toList = false)
    (h2 : leadsWith (lowerL s.toList) "mt ".toList = false)
    (h3 : leadsWith (lowerL s.toList) "pt ".toList = false) :
    expandSuburbAbbrev s = s := by
  unfold expandSuburbAbbrev
  by_cases h0 : s = ""
  · rw [if_pos h0]
  · rw [if_neg h0, if_neg (ne_true_of_false h1), if_neg (ne_true_of_false h2), if_neg (ne_true_of_false h3)]

lemma leadsWith_saint (d : List Char) :
    leadsWith ("saint ".toList ++ d) "st ".toList = false ∧
    leadsWith ("saint ".toList ++ d) "mt ".toList = false ∧
    leadsWith ("saint ".toList ++ d) "pt ".toList = false := by
  refine ⟨?_, ?_, ?_⟩ <;>
    · show leadsWith ('s' :: 'a' :: 'i' :: 'n' :: 't' :: ' ' :: d) _ = false
      simp [leadsWith]

lemma leadsWith_mount (d : List Char) :
    leadsWith ("mount ".toList ++ d) "st ".toList = false ∧
    leadsWith ("mount ".toList ++ d) "mt ".toList = false ∧
    leadsWith ("mount ".toList ++ d) "pt ".toList = false := by
  refine ⟨?_, ?_, ?_⟩ <;>
    · show leadsWith ('m' :: 'o' :: 'u' :: 'n' :: 't' :: ' ' :: d) _ = false
      simp [leadsWith]

lemma leadsWith_point (d : List Char) :
    leadsWith ("point ".toList ++ d) "st ".toList = false ∧
    leadsWith ("point ".toList ++ d) "mt ".toList = false ∧
    leadsWith ("point ".toList ++ d) "pt ".toList = false := by
  refine ⟨?_, ?_, ?_⟩ <;>
    · show leadsWith ('p' :: 'o' :: 'i' :: 'n' :: 't' :: ' ' :: d) _ = false
      simp [leadsWith]

lemma lowerL_saint (d : List Char) :
    lowerL (("saint ".toList ++ d).asString).toList = "saint ".toList ++ lowerL d := by
  rw [toList_asString, lowerL_append]
  rfl

lemma lowerL_mount (d : List Char) :
    lowerL (("mount ".toList ++ d).asString).toList = "mount ".toList ++ lowerL d := by
  rw [toList_asString, lowerL_append]
  rfl

lemma lowerL_point (d : List Char) :
    lowerL (("point ".toList ++ d).asString).toList = "point ".toList ++ lowerL d := by
  rw [toList_asString, lowerL_append]
  rfl

lemma expand_fixed_saint (d : List Char) :
    expandSuburbAbbrev (("saint ".toList ++ d).asString) = ("saint ".toList ++ d).asString := by
  apply expand_no_match <;> rw [lowerL_saint]
  · exact (leadsWith_saint (lowerL d)).1
  · exact (leadsWith_saint (lowerL d)).2.1
  · exact (leadsWith_saint (lowerL d)).2.2

lemma expand_fixed_mount (d : List Char) :
    expandSuburbAbbrev (("mount ".toList ++ d).asString) = ("mount ".toList ++ d).asString := by
  apply expand_no_match <;> rw [lowerL_mount]
  · exact (leadsWith_mount (lowerL d)).1
  · exact (leadsWith_mount (lowerL d)).2.1
  · exact (leadsWith_mount (lowerL d)).2.2

lemma expand_fixed_point (d : List Char) :
    expandSuburbAbbrev (("point ".toList ++ d).asString) = ("point ".toList ++ d).asString := by
  apply expand_no_match <;> rw [lowerL_point]
  · exact (leadsWith_point (lowerL d)).1
  · exact (leadsWith_point (lowerL d)).2.1
  · exact (leadsWith_point (lowerL d)).2.2

lemma expand_idem (s : String) :
    expandSuburbAbbrev (expandSuburbAbbrev s) = expandSuburbAbbrev s := by
  by_cases h0 : s = ""
  · subst h0
    rfl
  · cases h1 : leadsWith (lowerL s.toList) "st ".toList with
    | true =>
      rw [expand_of_st s h0 h1]
      exact expand_fixed_saint _
    | false =>
      cases h2 : leadsWith (lowerL s.toList) "mt ".toList with
      | true =>
        rw [expand_of_mt s h0 h1 h2]
        exact expand_fixed_mount _
      | false =>
        cases h3 : leadsWith (lowerL s.toList) "pt ".toList with
        | true =>
          rw [expand_of_pt s h0 h1 h2 h3]
          exact expand_fixed_point _
        | false =>
          have he := expand_no_match s h1 h2 h3
          rw [he, he]

/-! ### Parser lemmas -/

lemma numThenBody_ne_nil (l h b : List Char) (heq : numThenBody l = some (h, b)) :
    h ≠ [] := by
  simp only [numThenBody] at heq
  split at heq
  · exact absurd heq (by simp)
  · next hd =>
    split at heq
    · exact absurd heq (by simp)
    · next c rest =>
      split at heq
      · split at heq
        · next b2 hw =>
          injection heq with heq2
          cases heq2
          simp
        · exact absurd heq (by simp)
      · split at heq
        · next b2 hw =>
          injection heq with heq2
          cases heq2
          simpa using hd
        · exact absurd heq (by simp)


lemma patA_ne_nil (l u h b : List Char) (heq : patA l = some (u, h, b)) :
    u ≠ [] ∧ h ≠ [] := by
  simp only [patA] at heq
  split at heq
  · exact absurd heq (by simp)
  · next hd =>
    split at heq
    · next r2 =>
      split at heq
      · next h2 b2 hnb =>
        injection heq with heq2
        cases heq2
        exact ⟨by simpa using hd, numThenBody_ne_nil _ _ _ hnb⟩
      · exact absurd heq (by simp)
    · next c r2 =>
      split at heq
      · split at heq
        · next h2 b2 hnb =>
          injection heq with heq2
          cases heq2
          exact ⟨by simp, numThenBody_ne_nil _ _ _ hnb⟩
        · exact absurd heq (by simp)
      · exact absurd heq (by simp)
    · exact absurd heq (by simp)

lemma patBAfterKw_ne_nil (r : List Char) (u h b : List Char)
    (heq : patBAfterKw r = some (u, h, b)) : u ≠ [] ∧ h ≠ [] := by
  simp only [patBAfterKw] at heq
  split at heq
  · exact absurd heq (by simp)
  · split at heq
    · exact absurd heq (by simp)
    · next hd =>
      split at heq
      · exact absurd heq (by simp)
      · next c rest =>
        split at heq
        · split at heq
          · next c2 r2 =>
            split at heq
            · split at heq
              · next h2 b2 hnb =>
                injection heq with heq2
                cases heq2
                exact ⟨by simp, numThenBody_ne_nil _ _ _ hnb⟩
              · exact absurd heq (by simp)
            · exact absurd heq (by simp)
          · exact absurd heq (by simp)
        · split at heq
          · split at heq
            · next h2 b2 hnb =>
              injection heq with heq2
              cases heq2
              exact ⟨by simpa using hd, numThenBody_ne_nil _ _ _ hnb⟩
            · exact absurd heq (by simp)
          · exact absurd heq (by simp)

lemma tryKw_ne_nil (ks : List (List Char)) (l : List Char) (u h b : List Char)
    (heq : tryKw ks l = some (u, h, b)) : u ≠ [] ∧ h ≠ [] := by
  induction ks with
  | nil => simp [tryKw] at heq
  | cons k t ih =>
    simp only [tryKw] at heq
    split at heq
    · next r hr =>
      injection heq with heq2
      rw [heq2] at hr
      split at hr
      · exact patBAfterKw_ne_nil _ _ _ _ hr
      · exact absurd hr (by simp)
    · exact ih heq

lemma cascade_shape (sp : List Char) (u : Option (List Char)) (h b : List Char)
    (heq : cascade sp = some (u, h, b)) :
    h ≠ [] ∧ (∀ x, u = some x → x ≠ []) := by
  simp only [cascade] at heq
  split at heq
  · next u2 h2 b2 hA =>
    injection heq with heq2
    cases heq2
    obtain ⟨hu, hh⟩ := patA_ne_nil _ _ _ _ hA
    exact ⟨hh, fun x hx => by injection hx with hx2; rw [← hx2]; exact hu⟩
  · split at heq
    · next u2 h2 b2 hB =>
      injection heq with heq2
      cases heq2
      obtain ⟨hu, hh⟩ := tryKw_ne_nil _ _ _ _ _ hB
      exact ⟨hh, fun x hx => by injection hx with hx2; rw [← hx2]; exact hu⟩
    · split at heq
      · next h2 b2 hC =>
        injection heq with heq2
        cases heq2
        exact ⟨numThenBody_ne_nil _ _ _ hC, fun x hx => by simp at hx⟩
      · exact absurd heq (by simp)

lemma lookup_vals_ne_nil (m : List (List Char × List Char))
    (hm : ∀ p ∈ m, p.2 ≠ []) (w v : List Char)
    (h : List.lookup w m = some v) : v ≠ [] := by
  induction m with
  | nil => simp [List.lookup] at h
  | cons p t ih =>
    obtain ⟨k, val⟩ := p
    rw [List.lookup] at h
    split at h
    · injection h with h2
      rw [← h2]
      exact hm (k, val) (by simp)
    · exact ih (fun p hp => hm p (List.mem_cons_of_mem _ hp)) h

lemma stLookup_ne_nil (w v : List Char) (h : stLookup w = some v) : v ≠ [] :=
  lookup_vals_ne_nil STREET_TYPE_MAP (by decide) w v h

lemma canonical_not_nil : CANONICAL_STREET_TYPES.contains ([] : List Char) = false := by
  decide

lemma streetStage_ne_nil (body t : List Char) (h : (streetStage body).1 = some t) :
    t ≠ [] := by
  simp only [streetStage] at h
  split at h
  · next full hlk =>
    injection h with h2
    rw [← h2]
    exact stLookup_ne_nil _ _ hlk
  · split at h
    · next hcon =>
      injection h with h2
      intro hnil
      rw [h2, hnil] at hcon
      exact ne_true_of_false canonical_not_nil hcon
    · exact absurd h (by simp)

lemma orNullStr_eq_some (o : Option String) (s : String)
    (h : orNullStr o = some s) : o = some s ∧ s ≠ "" := by
  cases o with
  | none => simp [orNullStr] at h
  | some t =>
    simp only [orNullStr] at h
    by_cases ht : t = ""
    · rw [if_pos ht] at h
      exact absurd h (by simp)
    · rw [if_neg ht] at h
      injection h with h2
      subst h2
      exact ⟨rfl, ht⟩

lemma pickSuburbCity_sub_shape (lw : List (List Char)) (s : String)
    (h : (pickSuburbCity lw).1 = some s) :
    ∃ x : List Char, s = expandSuburbAbbrev (lowerL x).asString := by
  match lw with
  | [] => simp [pickSuburbCity] at h
  | [w] =>
    simp only [pickSuburbCity] at h
    injection h with h2
    exact ⟨w, h2.symm⟩
  | w :: w2 :: rest =>
    simp only [pickSuburbCity] at h
    injection h with h2
    exact ⟨w, h2.symm⟩

lemma lowerL_ne_nil {l : List Char} (h : l ≠ []) : lowerL l ≠ [] := by
  simp [lowerL, h]

section BuildRecordFields

variable (u : Option (List Char)) (h b : List Char) (parts : List (List Char))
  (pc0 : Option (List Char)) (sh ch : Option String)

lemma buildRecord_unitNum :
    (buildRecord u h b parts pc0 sh ch).unitNum =
      u.map fun l => (lowerL l).asString := rfl

lemma buildRecord_houseNum :
    (buildRecord u h b parts pc0 sh ch).houseNum = some (lowerL h).asString := rfl

lemma buildRecord_streetName :
    (buildRecord u h b parts pc0 sh ch).streetName =
      some (expandSuburbAbbrev (lowerL (joinSpace (streetStage b).2)).asString) := rfl

lemma buildRecord_streetType :
    (buildRecord u h b parts pc0 sh ch).streetType =
      (streetStage b).1.map List.asString := rfl

lemma buildRecord_suburb :
    (buildRecord u h b parts pc0 sh ch).suburb =
      orNullStr (if sh.isSome || ch.isSome then localityHint sh ch parts pc0
                 else localityNoHint parts pc0).1 := rfl

lemma buildRecord_city :
    (buildRecord u h b parts pc0 sh ch).city =
      orNullStr (if sh.isSome || ch.isSome then localityHint sh ch parts pc0
                 else localityNoHint parts pc0).2.1 := rfl

lemma buildRecord_postcode :
    (buildRecord u h b parts pc0 sh ch).postcode =
      orNullStr (if sh.isSome || ch.isSome then localityHint sh ch parts pc0
                 else localityNoHint parts pc0).2.2 := rfl

end BuildRecordFields

lemma localityNoHint_fst (parts : List (List Char)) (pc0 : Option (List Char)) :
    (localityNoHint parts pc0).1 = (pickSuburbCity (localWordsOf parts)).1 := rfl

lemma parseAddress_empty (sh ch : Option String) : parseAddress "" sh ch = invalidRec := rfl

lemma parseAddress_eq_none (raw : String) (sh ch : Option String) (hraw : raw ≠ "")
    (hc : cascade (splitStage raw).1 = none) : parseAddress raw sh ch = invalidRec := by
  simp [parseAddress, hraw, hc]

lemma parseAddress_eq_some (raw : String) (sh ch : Option String)
    (u : Option (List Char)) (h b : List Char) (hraw : raw ≠ "")
    (hc : cascade (splitStage raw).1 = some (u, h, b)) :
    parseAddress raw sh ch =
      buildRecord u h b (splitStage raw).2.1 (splitStage raw).2.2 sh ch := by
  simp [parseAddress, hraw, hc]

lemma buildRecord_valid (u : Option (List Char)) (h b : List Char)
    (parts : List (List Char)) (pc0 : Option (List Char)) (sh ch : Option String) :
    (buildRecord u h b parts pc0 sh ch).valid = true := rfl

/-! ### Claim theorems -/

/-- C1: `matchAddress` sets `unitFallback` to true exactly when the query has
no unit number and the candidate has one; consequently, because gate 2 forces
the candidate to also lack a unit whenever the query lacks one, every pair on
which `matchAddress` returns `match: true` gets `unitFallback = false` — the
true branch of the flag is unreachable. -/
theorem unitFallback_false_of_matched (q c : ParsedAddress)
    (h : (matchAddress (some q) (some c)).matched = true) :
    (matchAddress (some q) (some c)).unitFallback =
      some (decide (q.unitNum = none) && decide (c.unitNum ≠ none)) ∧
    (matchAddress (some q) (some c)).unitFallback = some false := by
  obtain ⟨h1, h2, h3, h4, h5, h6, h7⟩ := (matchAddress_matched_iff q c).1 h
  rw [matchAddress_of_pass q c h1 h2 h3 h4 h5 h6 h7]
  refine ⟨rfl, ?_⟩
  show some _ = some false
  congr 1
  unfold unitGateFails at h4
  cases hq : q.unitNum with
  | none =>
    cases hc : c.unitNum with
    | none => simp [hq, hc]
    | some v => rw [hq, hc] at h4; simp at h4
  | some u => simp [hq]

/-- Witness for C1 at a concrete matching pair. -/
theorem unitFallback_false_of_matched_witness :
    (matchAddress
      (some ⟨none, some "42", some "smith", some "street",
             some "remuera", some "auckland", some "1050", true⟩)
      (some ⟨none, some "42", some "smith", some "street",
             some "remuera", some "auckland", some "1050", true⟩)).unitFallback =
      some false :=
  (unitFallback_false_of_matched _ _ (by decide)).2

/-- C2: `parseAddress` is total (every string input yields a record); it
returns `valid: true` exactly when a house number was identified by one of
patterns A, B, C on the computed street portion, and whenever it returns
`valid: false` the result is the canonical invalid record with every other
field absent.  Non-string inputs take the same guard branch as the empty
string in the source. -/
theorem parseAddress_valid_iff (raw : String) (sh ch : Option String) :
    ((parseAddress raw sh ch).valid = false → parseAddress raw sh ch = invalidRec) ∧
    ((parseAddress raw sh ch).valid = true ↔
      (raw ≠ "" ∧ (cascade (splitStage raw).1).isSome = true)) := by
  by_cases hraw : raw = ""
  · subst hraw
    rw [parseAddress_empty]
    exact ⟨fun _ => rfl, by simp [invalidRec]⟩
  · cases hc : cascade (splitStage raw).1 with
    | none =>
      rw [parseAddress_eq_none raw sh ch hraw hc]
      exact ⟨fun _ => rfl, by simp [invalidRec, hc]⟩
    | some t =>
      obtain ⟨u, h, b⟩ := t
      rw [parseAddress_eq_some raw sh ch u h b hraw hc]
      refine ⟨fun hv => absurd (buildRecord_valid u h b _ _ sh ch)
        (by rw [hv]; decide), ?_⟩
      rw [buildRecord_valid]
      simp [hraw, hc]

/-- Witness for C2: the empty string parses to the canonical invalid record. -/
theorem parseAddress_valid_iff_witness : parseAddress "" none none = invalidRec :=
  (parseAddress_valid_iff "" none none).1 (by decide)

/-- C3: whenever either argument is null/undefined or has `valid: false`,
`matchAddress` returns `{ match: false, confidence: null }` with no scoring;
in particular matching the parse of the empty string against the parse of
"42 Smith Street" is a non-match with absent confidence. -/
theorem matchAddress_fail_closed :
    (∀ qo co : Option ParsedAddress,
      (qo = none ∨ co = none ∨
        ∃ q c, qo = some q ∧ co = some c ∧ (q.valid = false ∨ c.valid = false)) →
      matchAddress qo co = NO) ∧
    matchAddress (some (parseAddress "" none none))
      (some (parseAddress "42 Smith Street" none none)) = NO := by
  constructor
  · rintro qo co (rfl | rfl | ⟨q, c, rfl, rfl, hv⟩)
    · rfl
    · cases qo <;> rfl
    · rw [matchAddress_some]
      rcases hv with h | h <;> simp [h]
  · decide

/-- Witness for C3 at the null inputs. -/
theorem matchAddress_fail_closed_witness : matchAddress none none = NO :=
  matchAddress_fail_closed.1 none none (Or.inl rfl)

/-- C4: the unit gate is strict in both directions: a valid query with a unit
never matches a candidate lacking a string-equal unit, and a valid query
without a unit never matches a candidate that has one — any pair in which
exactly one side bears a unit is a non-match regardless of all other
fields. -/
theorem unit_gate_strict (q c : ParsedAddress) (_hq : q.valid = true)
    (_hc : c.valid = true) :
    ((q.unitNum ≠ none ∧ (c.unitNum = none ∨ q.unitNum ≠ c.unitNum)) →
      (matchAddress (some q) (some c)).matched = false) ∧
    ((q.unitNum = none ∧ c.unitNum ≠ none) →
      (matchAddress (some q) (some c)).matched = false) := by
  have key : unitGateFails q c = true →
      (matchAddress (some q) (some c)).matched = false := by
    intro hu
    cases hb : (matchAddress (some q) (some c)).matched with
    | false => rfl
    | true =>
      obtain ⟨_, _, _, h4, _⟩ := (matchAddress_matched_iff q c).1 hb
      rw [h4] at hu
      exact absurd hu (by simp)
  constructor
  · rintro ⟨ha, hb2⟩
    apply key
    unfold unitGateFails
    cases hqq : q.unitNum with
    | none => exact absurd hqq ha
    | some u =>
      cases hcc : c.unitNum with
      | none => rfl
      | some v =>
        rcases hb2 with h | h
        · rw [hcc] at h
          exact absurd h (by simp)
        · rw [hqq, hcc] at h
          simp only [ne_eq, Option.some.injEq] at h
          simp [h]
  · rintro ⟨ha, hb2⟩
    apply key
    unfold unitGateFails
    rw [ha]
    cases hcc : c.unitNum with
    | none => exact absurd hcc hb2
    | some v => rfl

/-- Witness for C4: a unit-bearing query against a unit-less candidate. -/
theorem unit_gate_strict_witness :
    (matchAddress
      (some ⟨some "2", some "42", some "smith", some "street", none, none, none, true⟩)
      (some ⟨none, some "42", some "smith", some "street", none, none, none, true⟩)).matched =
      false :=
  (unit_gate_strict _ _ (by decide) (by decide)).1 ⟨by decide, Or.inl rfl⟩

/-- The conjunction of the five hard gates of the matcher. -/
def gatesPass (q c : ParsedAddress) : Prop :=
  q.houseNum = c.houseNum ∧ unitGateFails q c = false ∧
  q.streetName = c.streetName ∧ typeGateFails q c = false ∧
  suburbGateFails q c = false

/-- The confidence tier mapping, characterized. -/
lemma confOf_iffs (s : Nat) :
    (confOf s = "high" ↔ 3 ≤ s) ∧ (confOf s = "medium" ↔ (1 ≤ s ∧ s ≤ 2)) ∧
    (confOf s = "low" ↔ s = 0) := by
  unfold confOf
  split_ifs with h1 h2
  · exact ⟨⟨fun _ => h1, fun _ => rfl⟩,
           ⟨fun hh => absurd hh (by decide), fun hh => by omega⟩,
           ⟨fun hh => absurd hh (by decide), fun hh => by omega⟩⟩
  · exact ⟨⟨fun hh => absurd hh (by decide), fun hh => by omega⟩,
           ⟨fun _ => by omega, fun _ => rfl⟩,
           ⟨fun hh => absurd hh (by decide), fun hh => by omega⟩⟩
  · exact ⟨⟨fun hh => absurd hh (by decide), fun hh => by omega⟩,
           ⟨fun hh => absurd hh (by decide), fun hh => by omega⟩,
           ⟨fun _ => by omega, fun _ => rfl⟩⟩

/-- C5: for every pair of valid records passing all five hard gates,
`matchAddress` returns `match: true` with confidence computed from the
locality score (+2 suburb, +1 city, +2 postcode): "high" iff the score is at
least 3, "medium" iff it is 1 or 2, "low" iff it is 0; the score never
exceeds 5, and scoring never turns the established match into a non-match. -/
theorem gates_pass_scoring (q c : ParsedAddress) (h1 : q.valid = true)
    (h2 : c.valid = true) (hg : gatesPass q c) :
    (matchAddress (some q) (some c)).matched = true ∧
    (matchAddress (some q) (some c)).confidence =
      some (confOf (localityScore q c)) ∧
    localityScore q c ≤ 5 ∧
    (confOf (localityScore q c) = "high" ↔ 3 ≤ localityScore q c) ∧
    (confOf (localityScore q c) = "medium" ↔
      (1 ≤ localityScore q c ∧ localityScore q c ≤ 2)) ∧
    (confOf (localityScore q c) = "low" ↔ localityScore q c = 0) := by
  obtain ⟨h3, h4, h5, h6, h7⟩ := hg
  rw [matchAddress_of_pass q c h1 h2 h3 h4 h5 h6 h7]
  have hb : localityScore q c ≤ 5 := by
    unfold localityScore
    split_ifs <;> omega
  obtain ⟨i1, i2, i3⟩ := confOf_iffs (localityScore q c)
  exact ⟨rfl, rfl, hb, i1, i2, i3⟩

/-- Witness for C5 at a concrete gate-passing pair. -/
theorem gates_pass_scoring_witness :
    (matchAddress
      (some ⟨none, some "7", some "queen", some "street",
             some "cbd", some "auckland", some "1010", true⟩)
      (some ⟨none, some "7", some "queen", some "street",
             some "cbd", some "auckland", some "1010", true⟩)).confidence =
      some (confOf 5) :=
  (gates_pass_scoring _ _ (by decide) (by decide)
    ⟨rfl, by decide, rfl, by decide, by decide⟩).2.1

/-- C6: the run-on PropertyValue slug
"865 Waikaretu Valley Road Tuakau Tuakau 2121" parses to a valid record with
house number 865, street name "waikaretu valley", street type "road",
postcode 2121, and the non-empty suburb "tuakau tuakau" derived from the
trailing words after the street type word. -/
theorem runOn_slug_parse :
    parseAddress "865 Waikaretu Valley Road Tuakau Tuakau 2121" none none =
      ⟨none, some "865", some "waikaretu valley", some "road",
       some "tuakau tuakau", none, some "2121", true⟩ ∧
    ("tuakau tuakau" : String) ≠ "" := by
  exact ⟨by decide, by decide⟩

/-- C7: reflexivity: every valid record matches itself, and when its suburb,
city and postcode are all present the score is 5 and the confidence is
"high". -/
theorem matchAddress_reflexive (p : ParsedAddress) (h : p.valid = true) :
    (matchAddress (some p) (some p)).matched = true ∧
    (truthyS p.suburb = true → truthyS p.city = true → truthyS p.postcode = true →
      localityScore p p = 5 ∧
      (matchAddress (some p) (some p)).confidence = some "high") := by
  have h4 : unitGateFails p p = false := by
    unfold unitGateFails
    cases p.unitNum <;> simp
  have h6 : typeGateFails p p = false := by
    unfold typeGateFails
    cases p.streetType <;> simp
  have hcompat : ∀ s : String, suburbCompatB s s = true := by
    intro s
    unfold suburbCompatB
    simp
  have h7 : suburbGateFails p p = false := by
    unfold suburbGateFails
    cases ht : truthyS p.suburb
    · simp
    · simp [hcompat]
  have heq := matchAddress_of_pass p p h h rfl h4 rfl h6 h7
  constructor
  · rw [heq]
    rfl
  · intro hs hcy hpc
    have hsc : localityScore p p = 5 := by
      unfold localityScore
      rw [hs, hcy, hpc]
      simp [hcompat, cityCompatB]
    refine ⟨hsc, ?_⟩
    rw [heq]
    show some (confOf _) = some "high"
    rw [hsc]
    rfl

/-- Witness for C7 at a concrete full record. -/
theorem matchAddress_reflexive_witness :
    localityScore
      ⟨none, some "9", some "ponsonby", some "road",
       some "ponsonby", some "auckland", some "1011", true⟩
      ⟨none, some "9", some "ponsonby", some "road",
       some "ponsonby", some "auckland", some "1011", true⟩ = 5 ∧
    (matchAddress
      (some ⟨none, some "9", some "ponsonby", some "road",
             some "ponsonby", some "auckland", some "1011", true⟩)
      (some ⟨none, some "9", some "ponsonby", some "road",
             some "ponsonby", some "auckland", some "1011", true⟩)).confidence =
      some "high" :=
  (matchAddress_reflexive _ (by decide)).2 (by decide) (by decide) (by decide)

/-- C8 counterexample: with a suburb hint, the returned suburb is used
directly (lowercased/trimmed) and is not suburb-prefix-expanded, so it is not
a fixed point of `expandSuburbAbbrev`. -/
theorem hint_suburb_unexpanded :
    (parseAddress "42 Smith Street" (some "Mt Eden") none).suburb = some "mt eden" ∧
    expandSuburbAbbrev "mt eden" ≠ "mt eden" := by
  decide

/-- C8 (amended): for every call of `parseAddress` without hints, whenever the
returned suburb is present it is suburb-prefix-expanded, i.e. a fixed point of
`expandSuburbAbbrev`; hint-mode suburbs are only lowercased and trimmed. -/
theorem noHint_suburb_expansion_fixed (raw : String) (s : String)
    (h : (parseAddress raw none none).suburb = some s) :
    expandSuburbAbbrev s = s := by
  by_cases hraw : raw = ""
  · subst hraw
    rw [parseAddress_empty] at h
    simp [invalidRec] at h
  · cases hc : cascade (splitStage raw).1 with
    | none =>
      rw [parseAddress_eq_none raw none none hraw hc] at h
      simp [invalidRec] at h
    | some t =>
      obtain ⟨u, hh, b⟩ := t
      rw [parseAddress_eq_some raw none none u hh b hraw hc, buildRecord_suburb] at h
      have h2 : orNullStr
          (localityNoHint (splitStage raw).2.1 (splitStage raw).2.2).1 = some s := h
      have h3 := (orNullStr_eq_some _ _ h2).1
      have h4 : (pickSuburbCity (localWordsOf (splitStage raw).2.1)).1 = some s := by
        rw [← localityNoHint_fst]
        exact h3
      obtain ⟨x, hx⟩ := pickSuburbCity_sub_shape _ _ h4
      rw [hx]
      exact expand_idem _

/-- Witness for the amended C8 at a concrete no-hint parse. -/
theorem noHint_suburb_expansion_fixed_witness :
    expandSuburbAbbrev "saint heliers" = "saint heliers" :=
  noHint_suburb_expansion_fixed "42 Smith Street, St Heliers" "saint heliers"
    (by decide)

/-- C9 counterexample: when the street body consists solely of a street type
word, the returned street name is the empty string, not the null sentinel. -/
theorem streetName_empty_string :
    (parseAddress "42 Street" none none).valid = true ∧
    (parseAddress "42 Street" none none).streetName = some "" := by
  decide

/-- C9 (amended): for every input, every string field of the returned record
other than `streetName` is either the null sentinel or a non-empty string;
`streetName` alone can be the empty string (when the street body consists
solely of a street-type word). -/
theorem parsed_fields_nonempty (raw : String) (sh ch : Option String) :
    (∀ s, (parseAddress raw sh ch).unitNum = some s → s ≠ "") ∧
    (∀ s, (parseAddress raw sh ch).houseNum = some s → s ≠ "") ∧
    (∀ s, (parseAddress raw sh ch).streetType = some s → s ≠ "") ∧
    (∀ s, (parseAddress raw sh ch).suburb = some s → s ≠ "") ∧
    (∀ s, (parseAddress raw sh ch).city = some s → s ≠ "") ∧
    (∀ s, (parseAddress raw sh ch).postcode = some s → s ≠ "") := by
  by_cases hraw : raw = ""
  · subst hraw
    rw [parseAddress_empty]
    refine ⟨?_, ?_, ?_, ?_, ?_, ?_⟩ <;> (intro s hs; simp [invalidRec] at hs)
  · cases hc : cascade (splitStage raw).1 with
    | none =>
      rw [parseAddress_eq_none raw sh ch hraw hc]
      refine ⟨?_, ?_, ?_, ?_, ?_, ?_⟩ <;> (intro s hs; simp [invalidRec] at hs)
    | some t =>
      obtain ⟨u, hh, b⟩ := t
      have hcas := cascade_shape _ _ _ _ hc
      rw [parseAddress_eq_some raw sh ch u hh b hraw hc]
      refine ⟨?_, ?_, ?_, ?_, ?_, ?_⟩
      · intro s hs
        rw [buildRecord_unitNum] at hs
        obtain ⟨x, hx, hxs⟩ := Option.map_eq_some'.mp hs
        rw [← hxs]
        exact asString_ne_empty (lowerL_ne_nil (hcas.2 x hx))
      · intro s hs
        rw [buildRecord_houseNum] at hs
        injection hs with hs2
        rw [← hs2]
        exact asString_ne_empty (lowerL_ne_nil hcas.1)
      · intro s hs
        rw [buildRecord_streetType] at hs
        obtain ⟨x, hx, hxs⟩ := Option.map_eq_some'.mp hs
        rw [← hxs]
        exact asString_ne_empty (streetStage_ne_nil _ _ hx)
      · intro s hs
        rw [buildRecord_suburb] at hs
        exact (orNullStr_eq_some _ _ hs).2
      · intro s hs
        rw [buildRecord_city] at hs
        exact (orNullStr_eq_some _ _ hs).2
      · intro s hs
        rw [buildRecord_postcode] at hs
        exact (orNullStr_eq_some _ _ hs).2

/-- Witness for the amended C9 at a concrete parse. -/
theorem parsed_fields_nonempty_witness : ("42" : String) ≠ "" :=
  (parsed_fields_nonempty "42 Smith Street" none none).2.1 "42" (by decide)

/-- C10: whenever `matchAddress` returns `match: true` and both suburbs are
present (non-empty), the confidence is "medium" or "high", never "low":
gate 5 and the +2 suburb scoring use the same compatibility predicate, so a
surviving pair with both suburbs present scores at least 2. -/
theorem suburb_match_not_low (q c : ParsedAddress)
    (h : (matchAddress (some q) (some c)).matched = true)
    (hs : truthyS q.suburb = true) (hc : truthyS c.suburb = true) :
    (matchAddress (some q) (some c)).confidence = some "medium" ∨
    (matchAddress (some q) (some c)).confidence = some "high" := by
  obtain ⟨h1, h2, h3, h4, h5, h6, h7⟩ := (matchAddress_matched_iff q c).1 h
  have hcompat : suburbCompatB (q.suburb.getD "") (c.suburb.getD "") = true := by
    unfold suburbGateFails at h7
    rw [hs, hc] at h7
    simpa using h7
  rw [matchAddress_of_pass q c h1 h2 h3 h4 h5 h6 h7]
  have hge : 2 ≤ localityScore q c := by
    unfold localityScore
    rw [hs, hc, hcompat]
    simp only [Bool.and_self, if_true]
    split_ifs <;> omega
  by_cases h3le : 3 ≤ localityScore q c
  · right
    show some (confOf _) = _
    unfold confOf
    rw [if_pos h3le]
  · left
    show some (confOf _) = _
    unfold confOf
    rw [if_neg h3le, if_pos (by omega)]

/-- Witness for C10: substring-compatible suburbs give "medium". -/
theorem suburb_match_not_low_witness :
    (matchAddress
      (some ⟨none, some "42", some "smith", some "street",
             some "auckland", none, none, true⟩)
      (some ⟨none, some "42", some "smith", some "street",
             some "auckland central", none, none, true⟩)).confidence =
      some "medium" ∨
    (matchAddress
      (some ⟨none, some "42", some "smith", some "street",
             some "auckland", none, none, true⟩)
      (some ⟨none, some "42", some "smith", some "street",
             some "auckland central", none, none, true⟩)).confidence =
      some "high" :=
  suburb_match_not_low _ _ (by decide) (by decide) (by decide)

end AddressMatcher
